import Mathlib

/-!
# faas-cli: the `up` pipeline, the ignore-file reader and the delete call

A shallow embedding of `commands/up.go` (`upRunner`, `ignorePatterns`, the flag
merging done by `init`) and of `proxy/delete.go` (`DeleteFunction`), followed by
the properties stated about them.

Conventions of the embedding:

* a Go `string` is a Lean `String`;
* a Go `error` returned by a collaborator is a value of an arbitrary type `ε`
  (for `DeleteFunction`, whose claims are about the text, it is the text);
* a collaborator with side effects (`runBuild`, `runPush`, ...) is a function on an
  explicit world state `σ` that returns the new world and its `error` result;
* every call of a collaborator is appended to a trace, so that "was invoked",
  "exactly once" and "before" are statements about a list.
-/

set_option autoImplicit false

namespace Up

/-! ## `upRunner` -/

/-- The four collaborators `upRunner` can call: `runPublish`, `runBuild`, `runPush`,
`runDeploy`. -/
inductive Stage
  | publish
  | build
  | push
  | deploy
  deriving DecidableEq, Repr

/-- The package-level option variables read by `upRunner`, together with the one
fact it asks of the command's flag set, `cmd.Flags().Changed("platforms")`. -/
structure Options where
  usePublish : Bool
  skipPush : Bool
  skipDeploy : Bool
  remoteBuilder : String
  platforms : String
  platformsChanged : Bool
  deriving DecidableEq, Repr

/-- The error value `upRunner` returns: either the one it builds itself with
`fmt.Errorf`, or the value a collaborator returned, passed on unchanged. -/
inductive RunError (ε : Type)
  | errorf (msg : String)
  | stage (e : ε)
  deriving DecidableEq, Repr

/-- One recorded collaborator call: which stage ran and what it returned
(`none` is Go's `nil`). -/
structure Call (ε : Type) where
  stage : Stage
  err : Option ε
  deriving DecidableEq, Repr

/-- The collaborators: each takes the world to a new world and an `error` result. -/
abbrev Stages (σ ε : Type) := Stage → σ → σ × Option ε

/-- What a run of `upRunner` leaves behind: the final world, the calls it made in
order, and its return value. -/
structure Run (σ ε : Type) where
  world : σ
  trace : List (Call ε)
  result : Option (RunError ε)

/-- The text of the error built at `up.go:112`. -/
def platformsErrorText : String :=
  "--platforms can only be used with the --publish flag"

/-- Call collaborator `s` in world `w`, recording the call at the end of `tr`. -/
def invoke {σ ε : Type} (st : Stages σ ε) (s : Stage) (w : σ) (tr : List (Call ε)) :
    σ × List (Call ε) × Option ε :=
  ((st s w).1, tr ++ [⟨s, (st s w).2⟩], (st s w).2)

/-- Lines 126-132 of `up.go`: the tail shared by both branches. -/
def upRunnerDeploy {σ ε : Type} (o : Options) (st : Stages σ ε) (w : σ)
    (tr : List (Call ε)) : Run σ ε :=
  if !o.skipDeploy then
    match invoke st Stage.deploy w tr with
    | (w1, t1, some err) => ⟨w1, t1, some (RunError.stage err)⟩
    | (w1, t1, none) => ⟨w1, t1, none⟩
  else
    ⟨w, tr, none⟩

/-- The function `upRunner` of `up.go` (lines 105-133). -/
def upRunner {σ ε : Type} (o : Options) (st : Stages σ ε) (w : σ) : Run σ ε :=
  if o.usePublish then
    match invoke st Stage.publish w [] with
    | (w1, t1, some err) => ⟨w1, t1, some (RunError.stage err)⟩
    | (w1, t1, none) => upRunnerDeploy o st w1 t1
  else
    if decide (o.platforms.utf8ByteSize > 0) && o.platformsChanged then
      ⟨w, [], some (RunError.errorf platformsErrorText)⟩
    else
      match invoke st Stage.build w [] with
      | (w1, t1, some err) => ⟨w1, t1, some (RunError.stage err)⟩
      | (w1, t1, none) =>
        if !o.skipPush && o.remoteBuilder == "" then
          match invoke st Stage.push w1 t1 with
          | (w2, t2, some err) => ⟨w2, t2, some (RunError.stage err)⟩
          | (w2, t2, none) => upRunnerDeploy o st w2 t2
        else
          upRunnerDeploy o st w1 t1

/-- The option check of `up.go:111` rejects the run: it is only made when
`usePublish` is false. -/
def validationFails (o : Options) : Bool :=
  !o.usePublish && (decide (o.platforms.utf8ByteSize > 0) && o.platformsChanged)

/-- The stages of a trace, in call order. -/
def stagesOf {ε : Type} (tr : List (Call ε)) : List Stage :=
  tr.map Call.stage

/-- A collaborator table without state, given by the `error` each stage returns. -/
def constStages {ε : Type} (out : Stage → Option ε) : Stages Unit ε :=
  fun s _ => ((), out s)

end Up

namespace Ignore

/-! ## `ignorePatterns` -/

/-- Modelled from the spec: `unicode.IsSpace` belongs to Go's standard library and is
not under src/; the "whitespace" that is trimmed is taken to be Go's set, the
code points with the Unicode White_Space property. -/
def isSpace (c : Char) : Bool :=
  let n := c.toNat
  (0x09 ≤ n && n ≤ 0x0d) || n == 0x20 || n == 0x85 || n == 0xa0 || n == 0x1680 ||
    (0x2000 ≤ n && n ≤ 0x200a) || n == 0x2028 || n == 0x2029 || n == 0x202f ||
    n == 0x205f || n == 0x3000

/-- Modelled from the spec: `strings.TrimSpace` belongs to Go's standard library and is
not under src/; "trim surrounding whitespace" removes the leading and the trailing
run of `isSpace` characters. -/
def TrimSpace (s : String) : String :=
  ⟨((s.data.dropWhile isSpace).reverse.dropWhile isSpace).reverse⟩

/-- Modelled from the spec: `strings.HasPrefix` belongs to Go's standard library and is
not under src/; `HasPrefix s p` tells whether `s` begins with `p`. -/
def HasPrefix (s p : String) : Bool :=
  p.data.isPrefixOf s.data

/-- What reading the opened file gives: the texts `scanner.Text()` yields while
`scanner.Scan()` is true, and then the value of `scanner.Err()`. -/
structure Scan (ε : Type) where
  lines : List String
  err : Option ε

/-- The loop of `up.go:148-154`, run over the remaining lines with the pattern slice
built so far. -/
def scanLoop {π : Type} (ParsePattern : String → π) : List String → List π → List π
  | [], patterns => patterns
  | text :: rest, patterns =>
    let line := TrimSpace text
    if line == "" || HasPrefix line "#" then
      scanLoop ParsePattern rest patterns
    else
      scanLoop ParsePattern rest (patterns ++ [ParsePattern line])

/-- The function `ignorePatterns` of `up.go` (lines 135-161). `ParsePattern s` stands
for go-git's `gitignore.ParsePattern(s, nil)`; `file` is the outcome of
`os.Open(".gitignore")` followed by the scan. -/
def ignorePatterns {π ε : Type} (ParsePattern : String → π) (file : Except ε (Scan ε)) :
    Except ε (List π) :=
  match file with
  | Except.error err => Except.error err
  | Except.ok f =>
    let patterns := scanLoop ParsePattern f.lines [ParsePattern ".git"]
    match f.err with
    | some err => Except.error err
    | none => Except.ok patterns

/-- The lines the specification keeps: after trimming, not empty and not beginning
with the comment marker. -/
def specKeeps (text : String) : Bool :=
  decide (TrimSpace text ≠ "") && decide ((TrimSpace text).data.head? ≠ some '#')

/-- The pattern list as the specification words it: the fixed `.git` pattern, then
the patterns of the trimmed kept lines in file order. -/
def specPatterns {π : Type} (ParsePattern : String → π) (lines : List String) : List π :=
  ParsePattern ".git" :: ((lines.filter specKeeps).map fun text => ParsePattern (TrimSpace text))

/-- The number of entries of a result that are not the fixed first rule. -/
def fileEntries {π ε : Type} : Except ε (List π) → Option Nat
  | Except.ok ps => some (ps.length - 1)
  | Except.error _ => none

end Ignore

namespace Flags

/-! ## The flag merging of `init` -/

/-- A flag definition, with the four fields the data model gives it. -/
structure Flag where
  name : String
  valueType : String
  defValue : String
  usage : String
  deriving DecidableEq, Repr

/-- A flag set: its flags in registration order. -/
abbrev FlagSet := List Flag

/-- The flag registered under `name`, if any. -/
def Lookup (f : FlagSet) (name : String) : Option Flag :=
  f.find? fun flag => flag.name == name

/-- Register one flag at the end of the set. -/
def AddFlag (f : FlagSet) (flag : Flag) : FlagSet :=
  f ++ [flag]

/-- Modelled from the spec: `AddFlagSet` of the pflag library, which `init` calls and
which is not under src/. "For each flag it defines, add it to the target if absent;
if a flag of the same name already exists in the target, it is left as-is". -/
def AddFlagSet (f newSet : FlagSet) : FlagSet :=
  newSet.foldl (fun acc flag => if (Lookup acc flag.name).isNone then AddFlag acc flag else acc) f

/-- The flag set `upFlagset` built at `up.go:27-36`. -/
def upFlagset : FlagSet :=
  [ ⟨"publish", "bool", "false",
      "Use faas-cli publish instead of faas-cli build followed by faas-cli push"⟩,
    ⟨"platforms", "string", "linux/amd64",
      "Publish for these platforms, when used with --publish"⟩,
    ⟨"skip-push", "bool", "false", "Skip pushing function to remote registry"⟩,
    ⟨"skip-deploy", "bool", "false", "Skip function deployment"⟩,
    ⟨"remote-builder", "string", "", "URL to the builder"⟩,
    ⟨"payload-secret", "string", "", "Path to payload secret file"⟩,
    ⟨"watch", "bool", "false", "Watch for changes in files and re-deploy"⟩ ]

/-- The merges of `init` (`up.go:37-46`): into the flags of `upCmd` go `upFlagset`,
then the flags of `build`, of `push` and of `deploy`. -/
def init (upCmdFlags build push deploy : FlagSet) : FlagSet :=
  AddFlagSet (AddFlagSet (AddFlagSet (AddFlagSet upCmdFlags upFlagset) build) push) deploy

end Flags

namespace Proxy

/-! ## `DeleteFunction` -/

/-- The request struct `requests.DeleteFunctionRequest`. -/
structure DeleteFunctionRequest where
  FunctionName : String
  deriving DecidableEq, Repr

/-- The parts of an `http.Request` the function sets. -/
structure Request where
  method : String
  url : String
  header : List (String × String)
  body : String
  deriving DecidableEq, Repr

/-- The parts of an `http.Response` the function reads: the status code, and what
`ioutil.ReadAll(delRes.Body)` gives, the body text or a read error. -/
structure Response where
  StatusCode : Int
  Body : Except String String

/-- The library and network calls the function makes. An error is its text. -/
structure Env where
  Marshal : DeleteFunctionRequest → Except String String
  NewRequest : String → String → String → Option Request
  Do : Request → Except String Response

/-- How a call of `DeleteFunction` ends: a nil dereference, or a return with the
lines printed and the `error` (`none` is `nil`). -/
inductive Outcome
  | panic
  | returned (printed : List String) (err : Option String)
  deriving DecidableEq, Repr

/-- The text built by `fmt.Errorf` at `delete.go:31`. -/
def transportErrorText (delErr gateway functionName : String) : String :=
  "error removing existing function: " ++ delErr ++ ", gateway=" ++ gateway ++
    ", functionName=" ++ functionName

/-- The text built by `fmt.Errorf` at `delete.go:46`. -/
def statusErrorText (statusCode : Int) (bytesOut : String) : String :=
  "server returned unexpected status code: " ++ toString statusCode ++ ".\n Response: " ++
    bytesOut

/-- The function `DeleteFunction` of `delete.go`. -/
def DeleteFunction (env : Env) (gateway functionName : String) : Outcome :=
  match env.Marshal ⟨functionName⟩ with
  | Except.error marshalErr => Outcome.returned [] (some marshalErr)
  | Except.ok reqBytes =>
    match env.NewRequest "DELETE" (gateway ++ "/system/functions") reqBytes with
    | none => Outcome.panic
    | some req =>
      match env.Do { req with header := req.header ++ [("Content-Type", "application/json")] } with
      | Except.error delErr =>
        Outcome.returned [] (some (transportErrorText delErr gateway functionName))
      | Except.ok delRes =>
        if delRes.StatusCode = 200 ∨ delRes.StatusCode = 201 ∨ delRes.StatusCode = 202 then
          Outcome.returned ["Removing old service."] none
        else if delRes.StatusCode = 404 then
          Outcome.returned ["No existing service to remove"] none
        else
          match delRes.Body with
          | Except.ok bytesOut =>
            Outcome.returned [] (some (statusErrorText delRes.StatusCode bytesOut))
          | Except.error _ => Outcome.returned [] none

/-- Go's `strings.Contains`, as a proposition: `sub` occurs in `s`. -/
def Contains (s sub : String) : Prop :=
  sub.data <:+: s.data

/-- An environment in which every call succeeds and the gateway answers `resp`. -/
def answering (resp : Response) : Env where
  Marshal := fun r => Except.ok ("\x7b\"functionName\":\"" ++ r.FunctionName ++ "\"\x7d")
  NewRequest := fun method url body => some ⟨method, url, [], body⟩
  Do := fun _ => Except.ok resp

end Proxy

namespace Up

/-- Shape of a run: the trace and result in terms of the collaborators' answers. -/
theorem upRunnerDeploy_eq {σ ε : Type} (o : Options) (st : Stages σ ε) (w : σ)
    (tr : List (Call ε)) :
    upRunnerDeploy o st w tr =
      if o.skipDeploy then ⟨w, tr, none⟩
      else ⟨(st Stage.deploy w).1, tr ++ [⟨Stage.deploy, (st Stage.deploy w).2⟩],
            (st Stage.deploy w).2.map RunError.stage⟩ := by
  unfold upRunnerDeploy invoke
  cases o.skipDeploy <;> simp
  cases h : (st Stage.deploy w).2 <;> simp [h]

end Up

namespace Up

/-- The run of `upRunner` with every tuple match resolved: one record per path. -/
theorem upRunner_eq {σ ε : Type} (o : Options) (st : Stages σ ε) (w : σ) :
    upRunner o st w =
      if o.usePublish then
        match (st Stage.publish w).2 with
        | some e => ⟨(st Stage.publish w).1, [⟨Stage.publish, some e⟩], some (RunError.stage e)⟩
        | none =>
          if o.skipDeploy then ⟨(st Stage.publish w).1, [⟨Stage.publish, none⟩], none⟩
          else ⟨(st Stage.deploy (st Stage.publish w).1).1,
                [⟨Stage.publish, none⟩,
                 ⟨Stage.deploy, (st Stage.deploy (st Stage.publish w).1).2⟩],
                (st Stage.deploy (st Stage.publish w).1).2.map RunError.stage⟩
      else if decide (o.platforms.utf8ByteSize > 0) && o.platformsChanged then
        ⟨w, [], some (RunError.errorf platformsErrorText)⟩
      else
        match (st Stage.build w).2 with
        | some e => ⟨(st Stage.build w).1, [⟨Stage.build, some e⟩], some (RunError.stage e)⟩
        | none =>
          if !o.skipPush && o.remoteBuilder == "" then
            match (st Stage.push (st Stage.build w).1).2 with
            | some e => ⟨(st Stage.push (st Stage.build w).1).1,
                         [⟨Stage.build, none⟩, ⟨Stage.push, some e⟩],
                         some (RunError.stage e)⟩
            | none =>
              if o.skipDeploy then
                ⟨(st Stage.push (st Stage.build w).1).1,
                 [⟨Stage.build, none⟩, ⟨Stage.push, none⟩], none⟩
              else
                ⟨(st Stage.deploy (st Stage.push (st Stage.build w).1).1).1,
                 [⟨Stage.build, none⟩, ⟨Stage.push, none⟩,
                  ⟨Stage.deploy, (st Stage.deploy (st Stage.push (st Stage.build w).1).1).2⟩],
                 (st Stage.deploy (st Stage.push (st Stage.build w).1).1).2.map RunError.stage⟩
          else
            if o.skipDeploy then ⟨(st Stage.build w).1, [⟨Stage.build, none⟩], none⟩
            else ⟨(st Stage.deploy (st Stage.build w).1).1,
                  [⟨Stage.build, none⟩,
                   ⟨Stage.deploy, (st Stage.deploy (st Stage.build w).1).2⟩],
                  (st Stage.deploy (st Stage.build w).1).2.map RunError.stage⟩ := by
  unfold upRunner
  simp only [upRunnerDeploy_eq, invoke]
  by_cases hu : o.usePublish
  · simp only [hu, if_true]
    cases hp : (st Stage.publish w).2 <;> simp
  · simp only [hu, Bool.false_eq_true, if_false]
    by_cases hv : (decide (o.platforms.utf8ByteSize > 0) && o.platformsChanged) = true
    · simp only [hv, if_true]
    · simp only [hv, if_false]
      cases hb : (st Stage.build w).2
      · by_cases hpush : (!o.skipPush && o.remoteBuilder == "") = true
        · simp only [hpush, if_true]
          cases hp : (st Stage.push (st Stage.build w).1).2 <;> simp
        · simp [hpush]
      · simp

/-- A non-empty character list has a positive UTF-8 byte length. -/
theorem utf8ByteSize_go_pos (c : Char) (cs : List Char) :
    0 < String.utf8ByteSize.go (c :: cs) := by
  have h := Char.utf8Size_pos c
  simp only [String.utf8ByteSize.go]
  omega

/-- Go's `len(s) > 0` holds exactly when `s` is not the empty string. -/
theorem utf8ByteSize_pos_iff (s : String) : 0 < s.utf8ByteSize ↔ s ≠ "" := by
  rcases s with ⟨l⟩
  cases l with
  | nil => simp [String.utf8ByteSize, String.utf8ByteSize.go]
  | cons c cs =>
    constructor
    · intro _ h
      have := congrArg String.data h
      simp at this
    · intro _
      exact utf8ByteSize_go_pos c cs

/-- The stages called in a run form one of seven sequences. -/
theorem stagesOf_upRunner_cases {σ ε : Type} (o : Options) (st : Stages σ ε) (w : σ) :
    stagesOf (upRunner o st w).trace = [] ∨
    stagesOf (upRunner o st w).trace = [Stage.publish] ∨
    stagesOf (upRunner o st w).trace = [Stage.publish, Stage.deploy] ∨
    stagesOf (upRunner o st w).trace = [Stage.build] ∨
    stagesOf (upRunner o st w).trace = [Stage.build, Stage.deploy] ∨
    stagesOf (upRunner o st w).trace = [Stage.build, Stage.push] ∨
    stagesOf (upRunner o st w).trace = [Stage.build, Stage.push, Stage.deploy] := by
  rw [upRunner_eq]
  unfold stagesOf
  split_ifs <;> (try split) <;> (try split) <;> simp_all

/-- C1: `upRunner` short-circuits on the first failure. Whenever a call it makes (the
`i`-th of the trace) returns an error `e`, the run returns exactly `e` and that call
is the last one made; and when the option check does not reject the run and every
call made returns `nil`, the run returns `nil`. -/
theorem upRunner_short_circuits {σ ε : Type} (o : Options) (st : Stages σ ε) (w : σ) :
    (∀ (i : Nat) (c : Call ε) (e : ε),
        (upRunner o st w).trace[i]? = some c → c.err = some e →
          (upRunner o st w).result = some (RunError.stage e) ∧
          (upRunner o st w).trace.length = i + 1) ∧
    (validationFails o = false → (∀ c ∈ (upRunner o st w).trace, c.err = none) →
        (upRunner o st w).result = none) := by
  rw [upRunner_eq]
  unfold validationFails
  constructor
  · intro i c e
    split_ifs <;> (try split) <;> (try split) <;>
      rcases i with _ | _ | _ | i <;> simp_all <;> (intro h1 h2; subst h1; simp_all)
  · split_ifs <;> (try split) <;> (try split) <;> simp_all

/-- Witness for C1: with the default options and a push that fails, the run returns
the push error and the failing push is the second and last call. -/
theorem upRunner_short_circuits_witness :
    (upRunner ⟨false, false, false, "", "linux/amd64", false⟩
        (constStages fun s => if s = Stage.push then some "denied" else none) ()).result
        = some (RunError.stage "denied") ∧
    (upRunner ⟨false, false, false, "", "linux/amd64", false⟩
        (constStages fun s => if s = Stage.push then some "denied" else none) ()).trace.length
        = 1 + 1 :=
  (upRunner_short_circuits ⟨false, false, false, "", "linux/amd64", false⟩
      (constStages fun s => if s = Stage.push then some "denied" else none) ()).1
    1 ⟨Stage.push, some "denied"⟩ "denied" (by decide) rfl

/-- C2: BUILD is called exactly when publish-mode is off and the option check passes.
In such a run, when BUILD returns `nil` it is the first call, and the second call is
PUSH, with the outcome of the push collaborator recorded, exactly when `skipPush` is
false and `remoteBuilder` is empty; PUSH occurs in the trace exactly in that case. The
same holds at whatever position a successful BUILD stands in the trace; every PUSH call
precedes every DEPLOY call; and when `skipPush` is true or `remoteBuilder` is
non-empty, PUSH is not called at all. -/
theorem upRunner_push_iff {σ ε : Type} (o : Options) (st : Stages σ ε) (w : σ) :
    (Stage.build ∈ stagesOf (upRunner o st w).trace ↔
        (o.usePublish = false ∧ validationFails o = false)) ∧
    (o.usePublish = false → validationFails o = false → (st Stage.build w).2 = none →
        (upRunner o st w).trace[0]? = some ⟨Stage.build, none⟩ ∧
        ((upRunner o st w).trace[1]?.map Call.stage = some Stage.push ↔
            (o.skipPush = false ∧ o.remoteBuilder = "")) ∧
        (o.skipPush = false → o.remoteBuilder = "" →
            (upRunner o st w).trace[1]?
              = some ⟨Stage.push, (st Stage.push (st Stage.build w).1).2⟩) ∧
        (Stage.push ∈ stagesOf (upRunner o st w).trace ↔
            (o.skipPush = false ∧ o.remoteBuilder = ""))) ∧
    (∀ i : Nat, (upRunner o st w).trace[i]? = some ⟨Stage.build, none⟩ →
        (((upRunner o st w).trace[i + 1]?.map Call.stage = some Stage.push ↔
            (o.skipPush = false ∧ o.remoteBuilder = "")) ∧
         (Stage.push ∈ stagesOf (upRunner o st w).trace ↔
            (o.skipPush = false ∧ o.remoteBuilder = "")))) ∧
    (∀ i j : Nat, (upRunner o st w).trace[i]?.map Call.stage = some Stage.push →
        (upRunner o st w).trace[j]?.map Call.stage = some Stage.deploy → i < j) ∧
    ((o.skipPush = true ∨ o.remoteBuilder ≠ "") →
        Stage.push ∉ stagesOf (upRunner o st w).trace) := by
  rw [upRunner_eq]
  unfold stagesOf validationFails
  refine ⟨?_, ?_, ?_, ?_, ?_⟩
  · split_ifs <;> (try split) <;> (try split) <;> simp_all
  · intro hp hv hb
    split_ifs <;> (try split) <;> (try split) <;> simp_all
  · intro i
    split_ifs <;> (try split) <;> (try split) <;>
      rcases i with _ | _ | _ | i <;> simp_all
  · intro i j
    have hshape := stagesOf_upRunner_cases o st w
    rw [upRunner_eq] at hshape
    unfold stagesOf at hshape
    rw [← List.getElem?_map, ← List.getElem?_map]
    rcases hshape with h | h | h | h | h | h | h <;> rw [h] <;>
      rcases i with _ | _ | _ | i <;> rcases j with _ | _ | _ | j <;> simp
  · split_ifs <;> (try split) <;> (try split) <;> simp_all

/-- Witness for C2: with the default options and a BUILD that succeeds, BUILD is the
first call and PUSH, here failing, is the second. -/
theorem upRunner_push_iff_witness :
    (upRunner ⟨false, false, false, "", "linux/amd64", false⟩
        (constStages fun s => if s = Stage.push then some "denied" else none) ()).trace[0]?
      = some ⟨Stage.build, none⟩ ∧
    (upRunner ⟨false, false, false, "", "linux/amd64", false⟩
        (constStages fun s => if s = Stage.push then some "denied" else none) ()).trace[1]?
      = some ⟨Stage.push, some "denied"⟩ :=
  ⟨((upRunner_push_iff ⟨false, false, false, "", "linux/amd64", false⟩
      (constStages fun s => if s = Stage.push then some "denied" else none) ()).2.1
      rfl rfl rfl).1,
   ((upRunner_push_iff ⟨false, false, false, "", "linux/amd64", false⟩
      (constStages fun s => if s = Stage.push then some "denied" else none) ()).2.1
      rfl rfl rfl).2.2.1 rfl rfl⟩

/-- C3: with `skipDeploy` false, when the option check does not reject the run and no
call of another stage returned an error, DEPLOY is called exactly once and it is the
last call, on the publish branch and on the build/push branch alike; with `skipDeploy`
true DEPLOY is never called. -/
theorem upRunner_deploy_once {σ ε : Type} (o : Options) (st : Stages σ ε) (w : σ) :
    (o.skipDeploy = false → validationFails o = false →
        (∀ c ∈ (upRunner o st w).trace, c.stage ≠ Stage.deploy → c.err = none) →
        (stagesOf (upRunner o st w).trace).count Stage.deploy = 1 ∧
        (stagesOf (upRunner o st w).trace).getLast? = some Stage.deploy) ∧
    (o.skipDeploy = true → Stage.deploy ∉ stagesOf (upRunner o st w).trace) := by
  rw [upRunner_eq]
  unfold stagesOf validationFails
  constructor
  · split_ifs <;> (try split) <;> (try split) <;> simp_all
  · split_ifs <;> (try split) <;> (try split) <;> simp_all

/-- Witness for C3: in publish mode with every stage succeeding, DEPLOY is called once
and last. -/
theorem upRunner_deploy_once_witness :
    (stagesOf (upRunner ⟨true, false, false, "", "linux/amd64", false⟩
        (constStages fun _ => (none : Option String)) ()).trace).count Stage.deploy = 1 ∧
    (stagesOf (upRunner ⟨true, false, false, "", "linux/amd64", false⟩
        (constStages fun _ => (none : Option String)) ()).trace).getLast?
      = some Stage.deploy :=
  (upRunner_deploy_once ⟨true, false, false, "", "linux/amd64", false⟩
      (constStages fun _ => (none : Option String)) ()).1 rfl rfl (by decide)

/-- C4, as stated, fails: with `--platforms ""` given explicitly and no `--publish`, the
check of `up.go:111` does not fire (`len(platforms) > 0` is false), BUILD, PUSH and
DEPLOY are called and the run returns `nil`. -/
theorem upRunner_platforms_empty_runs :
    (⟨false, false, false, "", "", true⟩ : Options).platformsChanged = true ∧
    (⟨false, false, false, "", "", true⟩ : Options).usePublish = false ∧
    (upRunner ⟨false, false, false, "", "", true⟩
        (constStages fun _ => (none : Option String)) ()).result = none ∧
    stagesOf (upRunner ⟨false, false, false, "", "", true⟩
        (constStages fun _ => (none : Option String)) ()).trace
      = [Stage.build, Stage.push, Stage.deploy] := by
  decide

/-- C4, amended: when the platforms option was explicitly set to a non-empty value and
publish-mode is false, `upRunner` returns the configuration error built at `up.go:112`,
calls no stage and leaves the world as it was. -/
theorem upRunner_platforms_rejected {σ ε : Type} (o : Options) (st : Stages σ ε) (w : σ)
    (hchanged : o.platformsChanged = true) (hvalue : o.platforms ≠ "")
    (hpublish : o.usePublish = false) :
    (upRunner o st w).result = some (RunError.errorf platformsErrorText) ∧
    (upRunner o st w).trace = [] ∧
    (upRunner o st w).world = w := by
  have hpos : 0 < o.platforms.utf8ByteSize := (utf8ByteSize_pos_iff o.platforms).2 hvalue
  rw [upRunner_eq]
  simp [hchanged, hpublish, hpos]

/-- Witness for C4 amended: `--platforms linux/arm64` without `--publish`. -/
theorem upRunner_platforms_rejected_witness :
    (upRunner ⟨false, false, false, "", "linux/arm64", true⟩
        (constStages fun _ => (none : Option String)) ()).result
      = some (RunError.errorf platformsErrorText) ∧
    (upRunner ⟨false, false, false, "", "linux/arm64", true⟩
        (constStages fun _ => (none : Option String)) ()).trace = [] ∧
    (upRunner ⟨false, false, false, "", "linux/arm64", true⟩
        (constStages fun _ => (none : Option String)) ()).world = () :=
  upRunner_platforms_rejected ⟨false, false, false, "", "linux/arm64", true⟩
    (constStages fun _ => (none : Option String)) () rfl (by decide) rfl

/-- C5: in publish mode, whatever `skipPush`, `remoteBuilder`, `platforms` and
`platformsChanged` are, the first call is the combined publish operation, the result is
never an error built by `upRunner` itself, BUILD and PUSH are not called, a failing
publish is returned as the result with no further call, and a second run in publish
mode with the same `skipDeploy` makes the same calls and returns the same result. -/
theorem upRunner_publish_mode {σ ε : Type} (o : Options) (st : Stages σ ε) (w : σ)
    (hpublish : o.usePublish = true) :
    (stagesOf (upRunner o st w).trace).head? = some Stage.publish ∧
    (∀ msg : String, (upRunner o st w).result ≠ some (RunError.errorf msg)) ∧
    Stage.build ∉ stagesOf (upRunner o st w).trace ∧
    Stage.push ∉ stagesOf (upRunner o st w).trace ∧
    (∀ e : ε, (st Stage.publish w).2 = some e →
        (upRunner o st w).result = some (RunError.stage e) ∧
        (upRunner o st w).trace = [⟨Stage.publish, some e⟩] ∧
        Stage.deploy ∉ stagesOf (upRunner o st w).trace) ∧
    (∀ o2 : Options, o2.usePublish = true → o2.skipDeploy = o.skipDeploy →
        upRunner o2 st w = upRunner o st w) := by
  refine ⟨?_, ?_, ?_, ?_, ?_, ?_⟩
  · rw [upRunner_eq]; unfold stagesOf
    split_ifs <;> (try split) <;> simp_all
  · intro msg
    rw [upRunner_eq]
    split_ifs <;> (try split) <;> simp_all
  · rw [upRunner_eq]; unfold stagesOf
    split_ifs <;> (try split) <;> simp_all
  · rw [upRunner_eq]; unfold stagesOf
    split_ifs <;> (try split) <;> simp_all
  · intro e he
    rw [upRunner_eq]; unfold stagesOf
    simp [hpublish, he]
  · intro o2 h2 hd
    rw [upRunner_eq, upRunner_eq]
    simp [hpublish, h2, hd]

/-- Witness for C5: publish mode with `--skip-push`, a remote builder and an explicit
platform list, and a publish that fails. -/
theorem upRunner_publish_mode_witness :
    (upRunner ⟨true, true, false, "http://builder", "linux/arm64", true⟩
        (constStages fun s => if s = Stage.publish then some "no buildx" else none) ()).result
      = some (RunError.stage "no buildx") ∧
    (upRunner ⟨true, true, false, "http://builder", "linux/arm64", true⟩
        (constStages fun s => if s = Stage.publish then some "no buildx" else none) ()).trace
      = [⟨Stage.publish, some "no buildx"⟩] ∧
    Stage.deploy ∉ stagesOf
      (upRunner ⟨true, true, false, "http://builder", "linux/arm64", true⟩
        (constStages fun s => if s = Stage.publish then some "no buildx" else none) ()).trace :=
  (upRunner_publish_mode ⟨true, true, false, "http://builder", "linux/arm64", true⟩
      (constStages fun s => if s = Stage.publish then some "no buildx" else none) ()
      rfl).2.2.2.2.1 "no buildx" rfl

end Up

namespace Ignore

/-- The one-character prefix test, read on the first character. -/
theorem hasPrefix_hash (s : String) : HasPrefix s "#" = true ↔ s.data.head? = some '#' := by
  unfold HasPrefix
  rcases s with ⟨l⟩
  cases l with
  | nil => simp [List.isPrefixOf]
  | cons c cs =>
    simp [List.isPrefixOf]
    exact eq_comm

/-- The guard of the loop skips exactly the lines the specification does not keep. -/
theorem skip_iff_not_keeps (text : String) :
    (TrimSpace text == "" || HasPrefix (TrimSpace text) "#") = !specKeeps text := by
  unfold specKeeps
  by_cases h1 : TrimSpace text = ""
  · simp [h1]
  · by_cases h2 : (TrimSpace text).data.head? = some '#'
    · simp [h1, h2, (hasPrefix_hash _).2 h2]
    · have h3 : HasPrefix (TrimSpace text) "#" = false := by
        cases h : HasPrefix (TrimSpace text) "#"
        · rfl
        · exact absurd ((hasPrefix_hash _).1 h) h2
      simp [h1, h2, h3]

/-- The loop appends, to the patterns it starts from, the patterns of the kept lines. -/
theorem scanLoop_eq {π : Type} (ParsePattern : String → π) (lines : List String)
    (patterns : List π) :
    scanLoop ParsePattern lines patterns =
      patterns ++ (lines.filter specKeeps).map fun text => ParsePattern (TrimSpace text) := by
  induction lines generalizing patterns with
  | nil => simp [scanLoop]
  | cons text rest ih =>
    unfold scanLoop
    simp only [skip_iff_not_keeps]
    cases hk : specKeeps text
    · simp [ih, hk]
    · simp [ih, hk]

/-- A line made of whitespace only trims to the empty string. -/
theorem trimSpace_of_all_space (text : String) (h : ∀ c ∈ text.data, isSpace c = true) :
    TrimSpace text = "" := by
  unfold TrimSpace
  have h1 : text.data.dropWhile isSpace = [] := List.dropWhile_eq_nil_iff.2 h
  rw [h1]
  rfl

/-- Dropping a run from the front of a list that ends in a character outside the run
keeps that last character. -/
theorem dropWhile_concat_keeps (p : Char → Bool) (a : Char) (ha : p a = false)
    (l : List Char) : ∃ x, (l ++ [a]).dropWhile p = x ++ [a] := by
  induction l with
  | nil => exact ⟨[], by simp [List.dropWhile, ha]⟩
  | cons b bs ih =>
    cases hb : p b
    · exact ⟨b :: bs, by simp [List.dropWhile, hb]⟩
    · obtain ⟨x, hx⟩ := ih
      exact ⟨x, by simp [List.dropWhile, hb, hx]⟩

/-- Dropping leading whitespace stops at the first character that is not whitespace. -/
theorem dropWhile_space_append (ws tail : List Char) (a : Char) (ha : isSpace a = false)
    (hws : ∀ c ∈ ws, isSpace c = true) :
    (ws ++ a :: tail).dropWhile isSpace = a :: tail := by
  induction ws with
  | nil => simp [List.dropWhile, ha]
  | cons c cs ih =>
    have hc : isSpace c = true := hws c (List.mem_cons_self c cs)
    simp only [List.cons_append, List.dropWhile, hc]
    exact ih (fun d hd => hws d (List.mem_cons_of_mem c hd))

/-- A comment line, also with whitespace before the marker, trims to a text that
begins with the marker. -/
theorem trimSpace_of_comment (text : String) (ws rest : List Char)
    (htext : text.data = ws ++ '#' :: rest) (hws : ∀ c ∈ ws, isSpace c = true) :
    (TrimSpace text).data.head? = some '#' := by
  unfold TrimSpace
  have hhash : isSpace '#' = false := by decide
  have h1 : text.data.dropWhile isSpace = '#' :: rest := by
    rw [htext]
    exact dropWhile_space_append ws rest '#' hhash hws
  rw [h1]
  obtain ⟨x, hx⟩ := dropWhile_concat_keeps isSpace '#' hhash rest.reverse
  have h2 : ('#' :: rest).reverse = rest.reverse ++ ['#'] := by simp
  rw [h2, hx]
  simp

/-- A blank, whitespace-only or comment line is not kept. -/
theorem specKeeps_false_of_blank_or_comment (text : String)
    (h : (∀ c ∈ text.data, isSpace c = true) ∨
         (∃ ws rest, text.data = ws ++ '#' :: rest ∧ ∀ c ∈ ws, isSpace c = true)) :
    specKeeps text = false := by
  unfold specKeeps
  rcases h with h | ⟨ws, rest, htext, hws⟩
  · simp [trimSpace_of_all_space text h]
  · simp [trimSpace_of_comment text ws rest htext hws]

/-- C8: for a file that is opened and scanned without error, `ignorePatterns` returns
the fixed `.git` pattern followed, in file order and with nothing else, by the patterns
of the trimmed text of exactly the lines whose trimmed text is non-empty and does not
begin with `#`; the list has `1 +` that many entries; and a line that is blank,
whitespace-only or a comment (also with whitespace before the `#`) contributes
nothing: the result is the same with that line removed. -/
theorem ignorePatterns_spec {π ε : Type} (ParsePattern : String → π) (lines : List String) :
    ignorePatterns ParsePattern (Except.ok ⟨lines, none⟩ : Except ε (Scan ε))
      = Except.ok (specPatterns ParsePattern lines) ∧
    (specPatterns ParsePattern lines).head? = some (ParsePattern ".git") ∧
    (specPatterns ParsePattern lines).tail
      = (lines.filter specKeeps).map (fun text => ParsePattern (TrimSpace text)) ∧
    (specPatterns ParsePattern lines).length = 1 + lines.countP specKeeps ∧
    (∀ text : String,
        ((∀ c ∈ text.data, isSpace c = true) ∨
         (∃ ws rest, text.data = ws ++ '#' :: rest ∧ ∀ c ∈ ws, isSpace c = true)) →
        ∀ pre post : List String,
          ignorePatterns ParsePattern (Except.ok ⟨pre ++ text :: post, none⟩ : Except ε (Scan ε))
            = ignorePatterns ParsePattern (Except.ok ⟨pre ++ post, none⟩)) := by
  refine ⟨?_, ?_, ?_, ?_, ?_⟩
  · simp [ignorePatterns, scanLoop_eq, specPatterns]
  · simp [specPatterns]
  · simp [specPatterns]
  · simp [specPatterns, List.countP_eq_length_filter, Nat.add_comm]
  · intro text h pre post
    have hk := specKeeps_false_of_blank_or_comment text h
    simp [ignorePatterns, scanLoop_eq, List.filter_cons, hk]

/-- Witness for C8: an indented comment between two patterns leaves no entry. -/
theorem ignorePatterns_spec_witness :
    ignorePatterns (fun s => s)
        (Except.ok ⟨["*.log"] ++ "  # note" :: ["build/"], none⟩ : Except String (Scan String))
      = ignorePatterns (fun s => s) (Except.ok ⟨["*.log"] ++ ["build/"], none⟩) :=
  (ignorePatterns_spec (fun s => s) []).2.2.2.2 "  # note"
    (Or.inr ⟨[' ', ' '], [' ', 'n', 'o', 't', 'e'], rfl, by decide⟩) ["*.log"] ["build/"]

/-- C10, as stated, fails: for the lines `"# comment", "", "*.log", "build/"` the
result has 2 entries, not 3, when the fixed `.git` rule is not counted. -/
theorem ignorePatterns_example_count :
    fileEntries (ignorePatterns (fun s => s)
        (Except.ok ⟨["# comment", "", "*.log", "build/"], none⟩ : Except String (Scan String)))
      = some 2 ∧
    fileEntries (ignorePatterns (fun s => s)
        (Except.ok ⟨["# comment", "", "*.log", "build/"], none⟩ : Except String (Scan String)))
      ≠ some 3 := by
  constructor <;> decide

/-- C10, amended: for the lines `"# comment", "", "*.log", "build/"` the result is the
fixed `.git` pattern followed by the patterns of `*.log` and `build/`: 3 entries
counting the fixed rule, 2 not counting it, none from the comment or the blank line. -/
theorem ignorePatterns_example {π ε : Type} (ParsePattern : String → π) :
    ignorePatterns ParsePattern
        (Except.ok ⟨["# comment", "", "*.log", "build/"], none⟩ : Except ε (Scan ε))
      = Except.ok [ParsePattern ".git", ParsePattern "*.log", ParsePattern "build/"] ∧
    fileEntries (ignorePatterns ParsePattern
        (Except.ok ⟨["# comment", "", "*.log", "build/"], none⟩ : Except ε (Scan ε)))
      = some 2 := by
  have h1 : specKeeps "# comment" = false := by decide
  have h2 : specKeeps "" = false := by decide
  have h3 : specKeeps "*.log" = true := by decide
  have h4 : specKeeps "build/" = true := by decide
  have t3 : TrimSpace "*.log" = "*.log" := by decide
  have t4 : TrimSpace "build/" = "build/" := by decide
  simp [ignorePatterns, scanLoop_eq, List.filter_cons, h1, h2, h3, h4, t3, t4, fileEntries]

end Ignore

namespace Flags

/-- Looking a name up in two sets put end to end. -/
theorem Lookup_append (f g : FlagSet) (name : String) :
    Lookup (f ++ g) name = (Lookup f name).or (Lookup g name) := by
  unfold Lookup
  exact List.find?_append

/-- One step of the merge. -/
theorem AddFlagSet_cons (f : FlagSet) (flag : Flag) (rest : FlagSet) :
    AddFlagSet f (flag :: rest) =
      AddFlagSet (if (Lookup f flag.name).isNone then AddFlag f flag else f) rest := by
  simp [AddFlagSet]

/-- The merge, name by name: the target's flag if it has one, else the source's. -/
theorem Lookup_AddFlagSet (f newSet : FlagSet) (name : String) :
    Lookup (AddFlagSet f newSet) name = (Lookup f name).or (Lookup newSet name) := by
  induction newSet generalizing f with
  | nil => simp [AddFlagSet, Lookup]
  | cons flag rest ih =>
    rw [AddFlagSet_cons, ih]
    cases hf : Lookup f flag.name with
    | none =>
      simp only [Option.isNone_none, if_true, AddFlag, Lookup_append, Option.or_assoc]
      congr 1
      rw [← Lookup_append]
      rfl
    | some g =>
      simp only [Option.isNone_some, Bool.false_eq_true, if_false]
      by_cases hn : flag.name = name
      · rw [← hn, hf]; simp
      · have : Lookup (flag :: rest) name = Lookup rest name := by
          simp [Lookup, List.find?_cons, hn]
        rw [this]

/-- The target is an initial segment of the merged set. -/
theorem prefix_AddFlagSet (f newSet : FlagSet) : f <+: AddFlagSet f newSet := by
  induction newSet generalizing f with
  | nil => simp [AddFlagSet]
  | cons flag rest ih =>
    rw [AddFlagSet_cons]
    split_ifs
    · exact (List.prefix_append f [flag]).trans (ih (AddFlag f flag))
    · exact ih f

/-- Merging a set all of whose names are present changes nothing. -/
theorem AddFlagSet_of_present (f newSet : FlagSet)
    (h : ∀ flag ∈ newSet, (Lookup f flag.name).isSome = true) : AddFlagSet f newSet = f := by
  induction newSet generalizing f with
  | nil => simp [AddFlagSet]
  | cons flag rest ih =>
    rw [AddFlagSet_cons]
    have hflag := h flag (List.mem_cons_self flag rest)
    have hnone : (Lookup f flag.name).isNone = false := by
      cases hl : Lookup f flag.name <;> simp_all
    simp only [hnone, Bool.false_eq_true, if_false]
    exact ih f (fun g hg => h g (List.mem_cons_of_mem flag hg))

/-- Every flag of a set is found under its name, possibly as an earlier namesake. -/
theorem Lookup_isSome_of_mem (f : FlagSet) (flag : Flag) (h : flag ∈ f) :
    (Lookup f flag.name).isSome = true := by
  unfold Lookup
  rw [List.find?_isSome]
  exact ⟨flag, h, by simp⟩

/-- A flag found by lookup belongs to the set. -/
theorem mem_of_Lookup (f : FlagSet) (name : String) (flag : Flag)
    (h : Lookup f name = some flag) : flag ∈ f := by
  unfold Lookup at h
  exact List.mem_of_find?_eq_some h

/-- C9: merging a source flag set into a target adds every source flag whose name is
absent from the target, leaves every flag already present exactly as it was (the target
is an initial segment of the result and keeps every name it had: first registration
wins), adds nothing else, and is idempotent: merging the same source twice gives the
same flag set as merging it once. The same holds along the four merges of `init`. -/
theorem AddFlagSet_first_wins_idempotent (target source : FlagSet) :
    (∀ flag : Flag, Lookup source flag.name = some flag → Lookup target flag.name = none →
        Lookup (AddFlagSet target source) flag.name = some flag ∧
        flag ∈ AddFlagSet target source) ∧
    target <+: AddFlagSet target source ∧
    (∀ (name : String) (flag : Flag), Lookup target name = some flag →
        Lookup (AddFlagSet target source) name = some flag) ∧
    (∀ name : String,
        Lookup (AddFlagSet target source) name = (Lookup target name).or (Lookup source name)) ∧
    AddFlagSet (AddFlagSet target source) source = AddFlagSet target source ∧
    (∀ (build push deploy : FlagSet) (name : String),
        Lookup (init target build push deploy) name =
          (Lookup target name).or ((Lookup upFlagset name).or ((Lookup build name).or
            ((Lookup push name).or (Lookup deploy name))))) := by
  refine ⟨?_, prefix_AddFlagSet target source, ?_, Lookup_AddFlagSet target source, ?_, ?_⟩
  · intro flag hs ht
    have h : Lookup (AddFlagSet target source) flag.name = some flag := by
      rw [Lookup_AddFlagSet, ht, hs]; rfl
    exact ⟨h, mem_of_Lookup _ _ _ h⟩
  · intro name flag ht
    rw [Lookup_AddFlagSet, ht]; rfl
  · apply AddFlagSet_of_present
    intro flag hflag
    rw [Lookup_AddFlagSet]
    have := Lookup_isSome_of_mem source flag hflag
    cases hl : Lookup target flag.name <;> simp_all
  · intro build push deploy name
    simp only [init, Lookup_AddFlagSet, Option.or_assoc]

/-- Witness for C9: `build` declares `--yaml` and its own `--platforms`; merged after
`upFlagset`, `--yaml` is added and `--platforms` stays the flag of `up`. -/
theorem AddFlagSet_first_wins_idempotent_witness :
    Lookup (AddFlagSet upFlagset
        [⟨"yaml", "string", "", "Path to YAML file"⟩, ⟨"platforms", "string", "x", "other"⟩])
        "platforms"
      = some ⟨"platforms", "string", "linux/amd64",
          "Publish for these platforms, when used with --publish"⟩ :=
  (AddFlagSet_first_wins_idempotent upFlagset
      [⟨"yaml", "string", "", "Path to YAML file"⟩, ⟨"platforms", "string", "x", "other"⟩]).2.2.1
    "platforms" ⟨"platforms", "string", "linux/amd64",
      "Publish for these platforms, when used with --publish"⟩ (by decide)

end Flags

namespace Proxy

/-- The text of the status error holds the decimal status code and the body text. -/
theorem statusErrorText_contains (statusCode : Int) (bytesOut : String) :
    Contains (statusErrorText statusCode bytesOut) (toString statusCode) ∧
    Contains (statusErrorText statusCode bytesOut) bytesOut := by
  unfold Contains statusErrorText
  simp only [String.data_append]
  constructor
  · rw [List.append_assoc]
    exact List.infix_append _ _ _
  · exact (List.suffix_append _ _).isInfix

/-- When the body of an unexpected response can be read, the status error is returned:
its text holds the decimal status code and the body text. -/
theorem DeleteFunction_status_error (env : Env) (gateway functionName reqBytes : String)
    (req : Request) (delRes : Response) (bytesOut : String)
    (hmarshal : env.Marshal ⟨functionName⟩ = Except.ok reqBytes)
    (hrequest : env.NewRequest "DELETE" (gateway ++ "/system/functions") reqBytes = some req)
    (hdo : env.Do { req with header := req.header ++ [("Content-Type", "application/json")] }
        = Except.ok delRes)
    (hstatus : delRes.StatusCode ≠ 200 ∧ delRes.StatusCode ≠ 201 ∧ delRes.StatusCode ≠ 202 ∧
        delRes.StatusCode ≠ 404)
    (hbody : delRes.Body = Except.ok bytesOut) :
    DeleteFunction env gateway functionName
      = Outcome.returned [] (some (statusErrorText delRes.StatusCode bytesOut)) ∧
    Contains (statusErrorText delRes.StatusCode bytesOut) (toString delRes.StatusCode) ∧
    Contains (statusErrorText delRes.StatusCode bytesOut) bytesOut := by
  refine ⟨?_, statusErrorText_contains _ _⟩
  obtain ⟨h200, h201, h202, h404⟩ := hstatus
  simp [DeleteFunction, hmarshal, hrequest, hdo, h200, h201, h202, h404, hbody]

/-- The example of the specification: status 500 with body `boom`. -/
theorem DeleteFunction_boom :
    DeleteFunction (answering ⟨500, Except.ok "boom"⟩) "http://127.0.0.1:8080" "echo"
      = Outcome.returned []
          (some "server returned unexpected status code: 500.\n Response: boom") ∧
    Contains "server returned unexpected status code: 500.\n Response: boom" "500" ∧
    Contains "server returned unexpected status code: 500.\n Response: boom" "boom" :=
  DeleteFunction_status_error (answering ⟨500, Except.ok "boom"⟩) "http://127.0.0.1:8080" "echo"
    "\x7b\"functionName\":\"echo\"\x7d"
    ⟨"DELETE", "http://127.0.0.1:8080/system/functions", [],
      "\x7b\"functionName\":\"echo\"\x7d"⟩
    ⟨500, Except.ok "boom"⟩ "boom" rfl rfl rfl (by decide) rfl

/-- C6 fails on the code: a response with status 500 whose body cannot be read makes
`DeleteFunction` return `nil`, because the read error of `delete.go:44` is dropped and
control falls through to `return nil`. -/
theorem DeleteFunction_unread_body_returns_nil :
    DeleteFunction (answering ⟨500, Except.error "unexpected EOF"⟩)
        "http://127.0.0.1:8080" "echo"
      = Outcome.returned [] none := by
  decide

/-- C7: when the HTTP call completes and the status code is 200, 201, 202 or 404,
`DeleteFunction` returns `nil`, whatever the response body is; for 404 it prints that
there is nothing to remove. -/
theorem DeleteFunction_success (env : Env) (gateway functionName reqBytes : String)
    (req : Request) (delRes : Response)
    (hmarshal : env.Marshal ⟨functionName⟩ = Except.ok reqBytes)
    (hrequest : env.NewRequest "DELETE" (gateway ++ "/system/functions") reqBytes = some req)
    (hdo : env.Do { req with header := req.header ++ [("Content-Type", "application/json")] }
        = Except.ok delRes)
    (hstatus : delRes.StatusCode = 200 ∨ delRes.StatusCode = 201 ∨ delRes.StatusCode = 202 ∨
        delRes.StatusCode = 404) :
    DeleteFunction env gateway functionName
      = Outcome.returned
          (if delRes.StatusCode = 404 then ["No existing service to remove"]
           else ["Removing old service."]) none := by
  rcases hstatus with h | h | h | h <;>
    simp [DeleteFunction, hmarshal, hrequest, hdo, h]

/-- Witness for C7: a 404 answer with a body that cannot even be read. -/
theorem DeleteFunction_success_witness :
    DeleteFunction (answering ⟨404, Except.error "unexpected EOF"⟩)
        "http://127.0.0.1:8080" "echo"
      = Outcome.returned
          (if (404 : Int) = 404 then ["No existing service to remove"]
           else ["Removing old service."]) none :=
  DeleteFunction_success (answering ⟨404, Except.error "unexpected EOF"⟩)
    "http://127.0.0.1:8080" "echo" "\x7b\"functionName\":\"echo\"\x7d"
    ⟨"DELETE", "http://127.0.0.1:8080/system/functions", [],
      "\x7b\"functionName\":\"echo\"\x7d"⟩
    ⟨404, Except.error "unexpected EOF"⟩ rfl rfl rfl (by decide)

end Proxy
